import Mathlib

/-!
Verification of the offline-first synchronization core of MyDailyOps
(app/database/offline.py, app/utils/sync.py, app/utils/tasks.py).

The SQLite tables are embedded as Lean lists of rows kept in rowid
(insertion) order.  SQL `ORDER BY` is embedded as a stable insertion
sort on the relevant key, which resolves equal keys in rowid order —
the deterministic refinement of SQLite's tie behaviour for these plain
table scans.  SQL NULL is embedded as `Option.none`; a Python dict that
lacks a key is likewise embedded with the corresponding field `none`
(so `dict.get(k, d)` becomes `Option.getD`).  The wall clock
(`datetime.utcnow()`) is passed explicitly as a string argument.
-/

namespace MyDailyOps

/-- Generic stable insertion sort: `le a b` means `a` may be placed before
`b`.  An element is inserted in front of the first element it `le`-relates
to, so elements with equal keys keep their original (rowid) order. -/
def insertLe {α : Type} (le : α → α → Bool) (a : α) : List α → List α
  | [] => [a]
  | x :: xs => if le a x then a :: x :: xs else x :: insertLe le a xs

/-- Stable sort by repeated insertion (head element is inserted last, hence
ends up before later elements with an equal key). -/
def sortLe {α : Type} (le : α → α → Bool) : List α → List α
  | [] => []
  | a :: as => insertLe le a (sortLe le as)

/-- Lexicographic order on code points, i.e. memcmp order on UTF-8 bytes —
the BINARY collation SQLite uses on these TEXT columns (and Python's
string order on the same timestamp strings). -/
def listCharLe : List Char → List Char → Bool
  | [], _ => true
  | _ :: _, [] => false
  | a :: as, b :: bs =>
    if a.toNat < b.toNat then true
    else if b.toNat < a.toNat then false
    else listCharLe as bs

/-- String comparison used by every ORDER BY in the model. -/
def strLeB (a b : String) : Bool := listCharLe a.data b.data

/-- SQL equality on nullable keys: NULL compares equal to nothing
(`NULL = NULL` is not true in SQLite, for `WHERE` and for uniqueness). -/
def sqlEq (a b : Option String) : Bool :=
  match a, b with
  | some x, some y => x = y
  | _, _ => false

/-- `ORDER BY created_at DESC` key comparison on nullable strings: NULL is
the smallest SQLite value, so it sorts last under DESC. -/
def descGe (a b : Option String) : Bool :=
  match a, b with
  | none, none => true
  | none, some _ => false
  | some _, none => true
  | some x, some y => strLeB y x

/-- A Python task dict as passed to the cache layer: `none` = key absent. -/
structure Task where
  id : Option String
  user_id : Option String
  title : Option String
  description : Option String
  priority : Option String
  category : Option String
  deadline : Option String
  status : Option String
  pinned : Option Bool
  created_at : Option String
  updated_at : Option String
deriving DecidableEq, Repr

/-- The task dict with every key absent (`{}`). -/
def Task.empty : Task :=
  ⟨none, none, none, none, none, none, none, none, none, none, none⟩

/-- A row of the `tasks_cache` table.  `priority`, `category`, `status` are
written through `dict.get` with a default and are therefore never NULL;
`pinned` and `synced` are the INTEGER columns as written (0 or 1). -/
structure Row where
  id : Option String
  user_id : Option String
  title : Option String
  description : Option String
  priority : String
  category : String
  deadline : Option String
  status : String
  pinned : Nat
  created_at : Option String
  updated_at : Option String
  synced : Nat
deriving DecidableEq, Repr

/-- The row written for a task by `cache_replace_all` (synced = 1). -/
def rowOfTaskReplace (t : Task) : Row :=
  { id := t.id
    user_id := t.user_id
    title := t.title
    description := t.description
    priority := t.priority.getD "medium"
    category := t.category.getD ""
    deadline := t.deadline
    status := t.status.getD "new"
    pinned := if t.pinned.getD false then 1 else 0
    created_at := t.created_at
    updated_at := t.updated_at
    synced := 1 }

/-- The row written for a task by `cache_upsert` (synced = 0;
`updated_at` defaults to the current clock reading `now`). -/
def rowOfTaskUpsert (t : Task) (now : String) : Row :=
  { rowOfTaskReplace t with
    updated_at := some (t.updated_at.getD now)
    synced := 0 }

/-- Plain `INSERT` of each task into an initially empty table: fails
(UNIQUE violation on the TEXT PRIMARY KEY `id`) as soon as a task repeats
a non-NULL id already inserted in this batch.  NULL ids never conflict
(SQLite permits multiple NULLs in a non-INTEGER PRIMARY KEY column). -/
def insertRows : List Task → List Row → Option (List Row)
  | [], acc => some acc
  | t :: ts, acc =>
    let r := rowOfTaskReplace t
    if acc.any (fun x => sqlEq x.id r.id) then
      none
    else
      insertRows ts (acc ++ [r])

/-- offline.cache_replace_all: inside one transaction, `DELETE FROM
tasks_cache` then insert every task with synced = 1; on any failure the
transaction is rolled back (prior contents preserved) and the error is
printed, never raised.  Returns the new store and an error-reported flag. -/
def cache_replace_all (store : List Row) (tasks_list : List Task) :
    List Row × Bool :=
  match insertRows tasks_list [] with
  | some rows => (rows, false)
  | none => (store, true)

/-- The task dict that offline.cache_get_all builds from a cached row
(note: it exposes no `synced` key; `pinned` goes through `bool(...)`). -/
structure TaskOut where
  id : Option String
  user_id : Option String
  title : Option String
  description : Option String
  priority : String
  category : String
  deadline : Option String
  status : String
  pinned : Bool
  created_at : Option String
  updated_at : Option String
deriving DecidableEq, Repr

/-- The dict built from one row by cache_get_all. -/
def taskOfRow (r : Row) : TaskOut :=
  { id := r.id
    user_id := r.user_id
    title := r.title
    description := r.description
    priority := r.priority
    category := r.category
    deadline := r.deadline
    status := r.status
    pinned := r.pinned ≠ 0
    created_at := r.created_at
    updated_at := r.updated_at }

/-- offline.cache_get_all: `SELECT * FROM tasks_cache ORDER BY created_at
DESC`, converted to dicts. -/
def cache_get_all (store : List Row) : List TaskOut :=
  (sortLe (fun a b => descGe a.created_at b.created_at) store).map taskOfRow

/-- offline.cache_upsert: `INSERT OR REPLACE` keyed on `id` — rows whose
non-NULL id equals the new row's id are replaced; a NULL id conflicts with
nothing and simply inserts.  The written row carries synced = 0. -/
def cache_upsert (store : List Row) (task : Task) (now : String) : List Row :=
  store.filter (fun r => !sqlEq r.id task.id) ++ [rowOfTaskUpsert task now]

/-- offline.cache_delete: `DELETE FROM tasks_cache WHERE id = ?`. -/
def cache_delete (store : List Row) (task_id : String) : List Row :=
  store.filter (fun r => !sqlEq r.id (some task_id))

/-- The payload TEXT column of `pending_updates`: a JSON-encoded task for
create/update (JSON round-trips, so it is kept structured) or the bare
task-id string for delete. -/
inductive Payload where
  | json (t : Task)
  | raw (s : String)
deriving DecidableEq, Repr

/-- A row of the `pending_updates` table; `id` is the AUTOINCREMENT key. -/
structure PendingRow where
  id : Nat
  task_id : Option String
  operation : String
  payload : Payload
  timestamp : String
deriving DecidableEq, Repr

/-- The `pending_updates` table plus its AUTOINCREMENT counter (which
survives `DELETE FROM pending_updates`). -/
structure Queue where
  rows : List PendingRow
  nextId : Nat
deriving DecidableEq, Repr

def Queue.empty : Queue := ⟨[], 0⟩

/-- The argument of offline.add_pending_update: a task dict for
create/update, a bare id string for delete. -/
inductive TaskOrId where
  | task (t : Task)
  | tid (s : String)
deriving DecidableEq, Repr

/-- offline.add_pending_update: computes `task_id` and `payload` from the
operation, inserts one row stamped with the current clock.  A mismatched
argument (a dict under "delete", or a string under any other operation)
raises inside the `try` before/at the insert; the exception is caught and
the queue is left unchanged. -/
def add_pending_update (q : Queue) (operation : String) (task : TaskOrId)
    (now : String) : Queue :=
  match task, decide (operation = "delete") with
  | .tid s, true =>
    ⟨q.rows ++ [⟨q.nextId, some s, operation, .raw s, now⟩], q.nextId + 1⟩
  | .task t, false =>
    ⟨q.rows ++ [⟨q.nextId, t.id, operation, .json t, now⟩], q.nextId + 1⟩
  | _, _ => q

/-- One element of the list returned by offline.pop_pending_updates
(payload already JSON-decoded for create/update). -/
structure Update where
  id : Nat
  task_id : Option String
  operation : String
  payload : Payload
  timestamp : String
deriving DecidableEq, Repr

/-- The update dict built from one queue row (json.loads is the inverse of
json.dumps, so decoding is the identity on the structured payload). -/
def updateOfRow (r : PendingRow) : Update :=
  ⟨r.id, r.task_id, r.operation, r.payload, r.timestamp⟩

/-- offline.pop_pending_updates: `SELECT * FROM pending_updates ORDER BY
timestamp ASC`, convert to dicts, and — only when the result is non-empty —
`DELETE FROM pending_updates`. -/
def pop_pending_updates (q : Queue) : List Update × Queue :=
  let updates :=
    (sortLe (fun a b => strLeB a.timestamp b.timestamp) q.rows).map
      updateOfRow
  if updates.isEmpty then (updates, q) else (updates, ⟨[], q.nextId⟩)

/-- offline.get_pending_count: `SELECT COUNT(*) FROM pending_updates`. -/
def get_pending_count (q : Queue) : Nat := q.rows.length

/-- Outcome of one Supabase call in the push loop: the call raises, or it
returns a response whose `.data` list is non-empty (`true`) or empty. -/
inductive RemoteResult where
  | raise
  | ok (nonempty : Bool)
deriving DecidableEq, Repr

/-- The remote's behaviour during one push, keyed by the update entry.
Within one drained batch every entry is distinct (distinct AUTOINCREMENT
ids), so a per-entry oracle loses no generality against a stateful remote. -/
def Oracle : Type := Update → RemoteResult

/-- Operations for which sync.push_to_supabase makes a remote call at all. -/
def isRemoteOp (op : String) : Bool :=
  op = "create" || op = "update" || op = "delete"

/-- The per-entry loop of sync.push_to_supabase: each create/update/delete
makes one remote call; a raised exception appends the entry to
`failed_updates`; a returned response bumps `success_count` only when its
`.data` is non-empty; any other operation string makes no call.
Returns (success_count, failed_updates). -/
def processUpdates (oracle : Oracle) : List Update → Nat × List Update
  | [] => (0, [])
  | u :: rest =>
    let r := processUpdates oracle rest
    if isRemoteOp u.operation then
      match oracle u with
      | .raise => (r.1, u :: r.2)
      | .ok nonempty => (if nonempty then r.1 + 1 else r.1, r.2)
    else
      r

/-- The re-queue block of sync.push_to_supabase: each failed update is
re-inserted at the end of `pending_updates` with a fresh AUTOINCREMENT id
but its ORIGINAL task_id, operation, payload and timestamp. -/
def requeueAll (q : Queue) (failed : List Update) : Queue :=
  failed.foldl
    (fun acc u =>
      ⟨acc.rows ++ [⟨acc.nextId, u.task_id, u.operation, u.payload,
        u.timestamp⟩], acc.nextId + 1⟩)
    q

/-- sync.push_to_supabase: if the pending count is 0 return True at once;
otherwise pop the whole queue, run the per-entry loop, re-queue the failed
entries, and return True iff at least one entry succeeded or the drained
batch was empty. -/
def push_to_supabase (oracle : Oracle) (q : Queue) : Bool × Queue :=
  if get_pending_count q = 0 then
    (true, q)
  else
    let popped := pop_pending_updates q
    let r := processUpdates oracle popped.1
    let q2 := requeueAll popped.2 r.2
    (decide (0 < r.1) || decide (popped.1.length = 0), q2)

/-- A row of the remote `tasks` table: a task record plus the server-side
soft-delete flag. -/
structure RemoteTask where
  task : Task
  deleted : Bool
deriving DecidableEq, Repr

/-- The pull query: `select * from tasks where user_id = uid and deleted =
false order by created_at desc`. -/
def remote_select (db : List RemoteTask) (uid : String) : List Task :=
  sortLe (fun a b => descGe a.created_at b.created_at)
    ((db.filter (fun r => sqlEq r.task.user_id (some uid) && !r.deleted)).map
      (·.task))

/-- sync.pull_from_supabase: `fetch` is the remote response — `none` when
the select raises (network/service error, pull returns False with the
store untouched), `some tasks` otherwise.  The cache is replaced ONLY when
`response.data` is truthy, i.e. the task list is non-empty; an empty list
logs "No tasks found on server" and returns True leaving the cache as is.
Errors inside cache_replace_all are swallowed there, so pull still
returns True. -/
def pull_from_supabase (fetch : Option (List Task)) (store : List Row) :
    Bool × List Row :=
  match fetch with
  | none => (false, store)
  | some tasks =>
    if tasks.isEmpty then (true, store)
    else (true, (cache_replace_all store tasks).1)

/-- sync.sync_now: push local changes, then pull, and return True only when
both phases returned True.  `fetch` is the pull-time remote response (the
remote state as the pull observes it, after the push has run). -/
def sync_now (oracle : Oracle) (fetch : Option (List Task))
    (store : List Row) (q : Queue) : Bool × List Row × Queue :=
  let push := push_to_supabase oracle q
  let pull := pull_from_supabase fetch store
  (push.1 && pull.1, pull.2, push.2)

/-- A Python datetime.date value. -/
structure PDate where
  year : Nat
  month : Nat
  day : Nat
deriving DecidableEq, Repr

/-- Leap-year rule of the proleptic Gregorian calendar (datetime). -/
def isLeap (y : Nat) : Bool :=
  (y % 4 = 0 && y % 100 ≠ 0) || y % 400 = 0

/-- Number of days in a month (0 for an invalid month number). -/
def daysInMonth (y m : Nat) : Nat :=
  if m = 1 ∨ m = 3 ∨ m = 5 ∨ m = 7 ∨ m = 8 ∨ m = 10 ∨ m = 12 then 31
  else if m = 4 ∨ m = 6 ∨ m = 9 ∨ m = 11 then 30
  else if m = 2 then (if isLeap y then 29 else 28)
  else 0

/-- A calendar-valid date within datetime's MINYEAR..MAXYEAR range. -/
def PDate.valid (d : PDate) : Bool :=
  1 ≤ d.year && d.year ≤ 9999 && 1 ≤ d.month && d.month ≤ 12 &&
    1 ≤ d.day && d.day ≤ daysInMonth d.year d.month

/-- Value of a list of decimal digit characters; `none` if empty or any
character is not a digit. -/
def digitsToNat : List Char → Option Nat
  | [] => none
  | cs =>
    if cs.all (·.isDigit) then
      some (cs.foldl (fun n c => n * 10 + (c.toNat - 48)) 0)
    else
      none

/-- date.fromisoformat on Python < 3.11: exactly "YYYY-MM-DD" (4-2-2
digits), then validity-checked; raises (here: `none`) otherwise. -/
def fromisoformat (cs : List Char) : Option PDate :=
  match cs with
  | [y1, y2, y3, y4, '-', m1, m2, '-', d1, d2] =>
    match digitsToNat [y1, y2, y3, y4], digitsToNat [m1, m2],
        digitsToNat [d1, d2] with
    | some y, some m, some d =>
      if (PDate.mk y m d).valid then some (PDate.mk y m d) else none
    | _, _, _ => none
  | _ => none

/-- Split a character list at the first occurrence of `c`; `none` when `c`
does not occur. -/
def splitAtChar (c : Char) : List Char → Option (List Char × List Char)
  | [] => none
  | x :: xs =>
    if x = c then some ([], xs)
    else
      match splitAtChar c xs with
      | some (pre, post) => some (x :: pre, post)
      | none => none

/-- datetime.strptime(s, "%Y-%m-%d %H:%M"): the format compiles to the
regex ^\d{4}-\d{1,2}-\d{1,2}\s+\d{1,2}:\d{1,2}$ with range checks on
month, day, hour and minute; only the date part is kept by the caller. -/
def strptimeDateHM (cs : List Char) : Option PDate :=
  match splitAtChar ' ' cs with
  | none => none
  | some (datePart, rest) =>
    match splitAtChar '-' datePart with
    | none => none
    | some (ys, mds) =>
      match splitAtChar '-' mds with
      | none => none
      | some (ms, ds) =>
        match splitAtChar ':' (rest.dropWhile (· = ' ')) with
        | none => none
        | some (hs, mins) =>
          if ys.length = 4 && 1 ≤ ms.length && ms.length ≤ 2 &&
              1 ≤ ds.length && ds.length ≤ 2 && 1 ≤ hs.length &&
              hs.length ≤ 2 && 1 ≤ mins.length && mins.length ≤ 2 then
            match digitsToNat ys, digitsToNat ms, digitsToNat ds,
                digitsToNat hs, digitsToNat mins with
            | some y, some m, some dd, some h, some mi =>
              if (PDate.mk y m dd).valid && h ≤ 23 && mi ≤ 59 then
                some (PDate.mk y m dd)
              else none
            | _, _, _, _, _ => none
          else
            none

/-- tasks.parse_deadline: `None`/empty input gives None; a string
containing 'T' is split before the first 'T' and parsed as an ISO date; a
string containing a space is parsed as "%Y-%m-%d %H:%M"; otherwise the
whole string is parsed as an ISO date.  Every parse failure is caught and
turned into None — the function is total and never raises. -/
def parse_deadline (deadline_str : Option String) : Option PDate :=
  match deadline_str with
  | none => none
  | some s =>
    let cs := s.data
    if cs.isEmpty then none
    else if cs.contains 'T' then
      fromisoformat (cs.takeWhile (· ≠ 'T'))
    else if cs.contains ' ' then
      strptimeDateHM cs
    else
      fromisoformat cs

/-- The rows that the re-queue block of push_to_supabase appends for a
failed list, starting from a given AUTOINCREMENT counter. -/
def requeuedRows (start : Nat) : List Update → List PendingRow
  | [] => []
  | u :: us =>
    ⟨start, u.task_id, u.operation, u.payload, u.timestamp⟩ ::
      requeuedRows (start + 1) us

theorem mem_insertLe {α : Type} (le : α → α → Bool) (a x : α)
    (l : List α) : x ∈ insertLe le a l ↔ x = a ∨ x ∈ l := by
  induction l with
  | nil => simp [insertLe]
  | cons b bs ih =>
    simp only [insertLe]
    split
    · simp [List.mem_cons]
    · simp only [List.mem_cons, ih]
      tauto

theorem mem_sortLe {α : Type} (le : α → α → Bool) (x : α) (l : List α) :
    x ∈ sortLe le l ↔ x ∈ l := by
  induction l with
  | nil => simp [sortLe]
  | cons a as ih => simp [sortLe, mem_insertLe, ih]

theorem length_insertLe {α : Type} (le : α → α → Bool) (a : α)
    (l : List α) : (insertLe le a l).length = l.length + 1 := by
  induction l with
  | nil => rfl
  | cons b bs ih =>
    simp only [insertLe]
    split
    · rfl
    · simp [ih]

theorem length_sortLe {α : Type} (le : α → α → Bool) (l : List α) :
    (sortLe le l).length = l.length := by
  induction l with
  | nil => rfl
  | cons a as ih => simp [sortLe, length_insertLe, ih]

theorem sortLe_eq_of_chain {α : Type} (le : α → α → Bool) :
    ∀ l : List α, List.Chain' (fun x y => le x y = true) l →
      sortLe le l = l := by
  intro l
  induction l with
  | nil => intro _; rfl
  | cons a as ih =>
    intro h
    rw [sortLe, ih h.tail]
    cases as with
    | nil => rfl
    | cons b bs =>
      have hab : le a b = true := (List.chain'_cons.mp h).1
      simp [insertLe, hab]

theorem insertLe_append_of_not {α : Type} (le : α → α → Bool) (a : α)
    (l X : List α) (h : ∀ b ∈ l, le a b = false) :
    insertLe le a (l ++ X) = l ++ insertLe le a X := by
  induction l with
  | nil => rfl
  | cons b bs ih =>
    have hb : le a b = false := h b (List.mem_cons_self b bs)
    simp only [List.cons_append, insertLe, hb, Bool.false_eq_true,
      if_false, List.cons.injEq, true_and]
    exact ih (fun c hc => h c (List.mem_cons_of_mem b hc))

theorem sortLe_append_sep {α : Type} (le : α → α → Bool) :
    ∀ (l₁ l₂ : List α), (∀ a ∈ l₁, ∀ b ∈ l₂, le a b = false) →
      sortLe le (l₁ ++ l₂) = sortLe le l₂ ++ sortLe le l₁ := by
  intro l₁ l₂ h
  induction l₁ with
  | nil => simp [sortLe]
  | cons a as ih =>
    rw [List.cons_append, sortLe,
      ih (fun x hx => h x (List.mem_cons_of_mem a hx)),
      insertLe_append_of_not le a _ _
        (fun b hb => h a (List.mem_cons_self a as) b ((mem_sortLe le b l₂).mp hb))]
    rfl

theorem insertRows_eq : ∀ (ts : List Task) (acc rows : List Row),
    insertRows ts acc = some rows →
      rows = acc ++ ts.map rowOfTaskReplace := by
  intro ts
  induction ts with
  | nil =>
    intro acc rows h
    simp only [insertRows, Option.some.injEq] at h
    simp [h.symm]
  | cons t ts ih =>
    intro acc rows h
    simp only [insertRows] at h
    split at h
    · exact absurd h (by simp)
    · have := ih _ _ h
      simp only [List.map_cons]
      rw [this, List.append_assoc]
      rfl

theorem requeueAll_eq : ∀ (failed : List Update) (q : Queue),
    requeueAll q failed =
      ⟨q.rows ++ requeuedRows q.nextId failed, q.nextId + failed.length⟩ := by
  intro failed
  induction failed with
  | nil => intro q; simp [requeueAll, requeuedRows]
  | cons u us ih =>
    intro q
    simp only [requeueAll, List.foldl_cons] at *
    rw [ih]
    simp only [requeuedRows, List.length_cons, Queue.mk.injEq]
    constructor
    · rw [List.append_assoc]
      rfl
    · omega

theorem requeuedRows_map_timestamp : ∀ (us : List Update) (s : Nat),
    (requeuedRows s us).map (fun r => r.timestamp)
      = us.map (fun u => u.timestamp) := by
  intro us
  induction us with
  | nil => intro s; rfl
  | cons u us ih => intro s; simp [requeuedRows, ih]

/-- Executable check that a list is nondecreasing on a string key. -/
def sortedByKeyB {α : Type} (key : α → String) : List α → Bool
  | [] => true
  | [_] => true
  | a :: b :: rest => strLeB (key a) (key b) && sortedByKeyB key (b :: rest)

theorem chain'_of_sortedByKeyB {α : Type} (key : α → String) :
    ∀ l : List α, sortedByKeyB key l = true →
      List.Chain' (fun a b => strLeB (key a) (key b) = true) l
  | [], _ => List.chain'_nil
  | [a], _ => List.chain'_singleton a
  | a :: b :: rest, h => by
    simp only [sortedByKeyB, Bool.and_eq_true] at h
    exact List.chain'_cons.mpr
      ⟨h.1, chain'_of_sortedByKeyB key (b :: rest) h.2⟩

theorem requeuedRows_map_fields : ∀ (us : List Update) (s : Nat),
    (requeuedRows s us).map
        (fun r => (r.task_id, r.operation, r.payload, r.timestamp))
      = us.map (fun u => (u.task_id, u.operation, u.payload, u.timestamp)) := by
  intro us
  induction us with
  | nil => intro s; rfl
  | cons u us ih => intro s; simp [requeuedRows, ih]

theorem pop_fst (q : Queue) :
    (pop_pending_updates q).1
      = (sortLe (fun a b => strLeB a.timestamp b.timestamp) q.rows).map
          updateOfRow := by
  simp only [pop_pending_updates]
  split <;> rfl

theorem pop_snd_of_ne (q : Queue) (h : q.rows ≠ []) :
    (pop_pending_updates q).2 = ⟨[], q.nextId⟩ := by
  obtain ⟨rows, nid⟩ := q
  simp only [pop_pending_updates]
  split
  · next hemp =>
    exfalso
    rw [List.isEmpty_iff] at hemp
    apply h
    have hlen := congrArg List.length hemp
    simp only [List.length_map, length_sortLe, List.length_nil] at hlen
    exact List.length_eq_zero.mp hlen
  · rfl

/-- A task dict for the remote row T1. -/
def taskT1 : Task :=
  { Task.empty with
    id := some "T1"
    title := some "t"
    created_at := some "2025-01-01" }

/-- The cached row for T1 as written by a pull. -/
def rowT1 : Row := rowOfTaskReplace taskT1

/-- A two-entry queue with ascending enqueue timestamps. -/
def qTwo : Queue :=
  add_pending_update
    (add_pending_update Queue.empty "update" (.task taskT1)
      "2025-01-01T00:00:00")
    "delete" (.tid "T1") "2025-01-02T00:00:00"

/-- Claim C7: a drain_all returns all currently queued entries oldest-first
— in enqueue order, since enqueue appends with the current clock reading
and the embedded clock readings are nondecreasing (hypothesis `h`) — and
leaves the queue empty, so an immediately following drain_all returns the
empty list. -/
theorem drain_all_fifo (q : Queue)
    (h : List.Chain' (fun a b => strLeB a.timestamp b.timestamp = true)
      q.rows) :
    (pop_pending_updates q).1 = q.rows.map updateOfRow
    ∧ (pop_pending_updates q).2.rows = []
    ∧ (pop_pending_updates ((pop_pending_updates q).2)).1 = [] := by
  have hs : sortLe (fun a b => strLeB a.timestamp b.timestamp) q.rows
      = q.rows :=
    sortLe_eq_of_chain _ q.rows h
  obtain ⟨rows, nid⟩ := q
  simp only at hs
  cases rows with
  | nil => exact ⟨rfl, rfl, rfl⟩
  | cons r rs =>
    have hpop : pop_pending_updates ⟨r :: rs, nid⟩
        = ((r :: rs).map updateOfRow, ⟨[], nid⟩) := by
      unfold pop_pending_updates
      rw [hs]
      simp
    rw [hpop]
    exact ⟨rfl, rfl, rfl⟩

/-- Witness for C7 on a concrete two-entry queue. -/
theorem drain_all_fifo_witness :
    (pop_pending_updates qTwo).1 = qTwo.rows.map updateOfRow
    ∧ (pop_pending_updates qTwo).2.rows = []
    ∧ (pop_pending_updates ((pop_pending_updates qTwo).2)).1 = [] :=
  drain_all_fifo qTwo
    (chain'_of_sortedByKeyB (fun r => r.timestamp) qTwo.rows (by decide))

/-- Counterexample to C8 as stated: upserting the identical payload `{}`
(no id key) twice — even at the same clock reading — leaves TWO rows with
a NULL id, not the one-row store a single call leaves: `INSERT OR REPLACE`
never conflicts on a NULL TEXT PRIMARY KEY. -/
theorem upsert_twice_no_id_differs :
    cache_upsert (cache_upsert [] Task.empty "2025-01-01T00:00:00")
        Task.empty "2025-01-01T00:00:00"
      ≠ cache_upsert [] Task.empty "2025-01-01T00:00:00" := by
  decide

/-- Claim C8 (amended): for a payload that carries an id, upserting it
twice leaves the same store as the single (second) call; delete twice is
always the same as delete once. -/
theorem upsert_delete_idempotent :
    (∀ (store : List Row) (t : Task) (i : String) (n₁ n₂ : String),
        t.id = some i →
        cache_upsert (cache_upsert store t n₁) t n₂
          = cache_upsert store t n₂)
    ∧ ∀ (store : List Row) (i : String),
        cache_delete (cache_delete store i) i = cache_delete store i := by
  constructor
  · intro store t i n₁ n₂ hid
    have hrow : (rowOfTaskUpsert t n₁).id = some i := by
      simp [rowOfTaskUpsert, rowOfTaskReplace, hid]
    simp [cache_upsert, List.filter_append, List.filter_filter, hrow,
      sqlEq, hid, Bool.and_self]
  · intro store i
    simp [cache_delete, List.filter_filter, Bool.and_self]

/-- Witness for C8 (amended) on a concrete id-carrying payload. -/
theorem upsert_delete_idempotent_witness :
    cache_upsert (cache_upsert [] taskT1 "a") taskT1 "b"
      = cache_upsert [] taskT1 "b"
    ∧ cache_delete (cache_delete [rowT1] "T1") "T1"
      = cache_delete [rowT1] "T1" :=
  ⟨upsert_delete_idempotent.1 [] taskT1 "T1" "a" "b" rfl,
   upsert_delete_idempotent.2 [rowT1] "T1"⟩

/-- Claim C10: a payload without an updated_at key is stored with the
current clock reading as updated_at — so the resulting store depends on
the call time — while a payload carrying updated_at is stored with exactly
the given value, independent of the call time. -/
theorem upsert_updated_at_clock :
    (∀ (t : Task) (now : String), t.updated_at = none →
        (rowOfTaskUpsert t now).updated_at = some now)
    ∧ (∀ (t : Task) (now v : String), t.updated_at = some v →
        (rowOfTaskUpsert t now).updated_at = some v)
    ∧ (∀ (store : List Row) (t : Task) (n₁ n₂ : String),
        t.updated_at = none → n₁ ≠ n₂ →
        cache_upsert store t n₁ ≠ cache_upsert store t n₂)
    ∧ (∀ (store : List Row) (t : Task) (n₁ n₂ v : String),
        t.updated_at = some v →
        cache_upsert store t n₁ = cache_upsert store t n₂) := by
  refine ⟨?_, ?_, ?_, ?_⟩
  · intro t now h
    simp [rowOfTaskUpsert, rowOfTaskReplace, h]
  · intro t now v h
    simp [rowOfTaskUpsert, rowOfTaskReplace, h]
  · intro store t n₁ n₂ h hne heq
    have h3 : rowOfTaskUpsert t n₁ = rowOfTaskUpsert t n₂ := by
      simpa [cache_upsert] using List.append_cancel_left heq
    have h4 := congrArg Row.updated_at h3
    simp [rowOfTaskUpsert, rowOfTaskReplace, h] at h4
    exact hne h4
  · intro store t n₁ n₂ v h
    have : rowOfTaskUpsert t n₁ = rowOfTaskUpsert t n₂ := by
      simp [rowOfTaskUpsert, rowOfTaskReplace, h]
    simp [cache_upsert, this]

/-- A task dict that carries an updated_at key. -/
def taskStamped : Task :=
  { Task.empty with updated_at := some "2024-06-01" }

/-- Witness for C10 at concrete payloads and clock readings. -/
theorem upsert_updated_at_clock_witness :
    (rowOfTaskUpsert Task.empty "2025-01-01").updated_at
      = some "2025-01-01"
    ∧ (rowOfTaskUpsert taskStamped "2025-01-01").updated_at
      = some "2024-06-01"
    ∧ cache_upsert [] Task.empty "2025-01-01"
      ≠ cache_upsert [] Task.empty "2025-01-02"
    ∧ cache_upsert [] taskStamped "2025-01-01"
      = cache_upsert [] taskStamped "2025-01-02" :=
  ⟨upsert_updated_at_clock.1 Task.empty "2025-01-01" rfl,
   upsert_updated_at_clock.2.1 taskStamped "2025-01-01" "2024-06-01" rfl,
   upsert_updated_at_clock.2.2.1 [] Task.empty "2025-01-01" "2025-01-02"
     rfl (by decide),
   upsert_updated_at_clock.2.2.2 [] taskStamped "2025-01-01" "2025-01-02"
     "2024-06-01" rfl⟩

/-- The server-side task row 42 (the record returned by the remote after
the create of "Buy milk" succeeded with server-assigned id "42"). -/
def task42 : Task :=
  { Task.empty with
    id := some "42"
    user_id := some "U1"
    title := some "Buy milk"
    priority := some "low"
    created_at := some "2025-01-01T00:00:01" }

/-- A one-row remote table owned by U1, not deleted. -/
def dbOne : List RemoteTask := [⟨task42, false⟩]

/-- A queue holding one enqueued delete of T1. -/
def queueDeleteT1 : Queue :=
  add_pending_update Queue.empty "delete" (.tid "T1") "2025-01-03T00:00:00"

/-- Counterexample to C1 as stated: local store holds T1, the queue holds a
delete of T1, the push succeeds (the remote soft-deletes T1, leaving the
owner's remote set empty), the pull succeeds and returns the empty set —
sync_now reports success, yet get_all() still contains T1, because
pull_from_supabase skips cache_replace_all whenever response.data is
empty. -/
theorem sync_empty_remote_keeps_stale_rows :
    sync_now (fun _ => .ok true) (some []) [rowT1] queueDeleteT1
      = (true, [rowT1], ⟨[], 1⟩)
    ∧ (cache_get_all [rowT1]).map (fun t => t.id) = [some "T1"] := by
  exact ⟨by decide, by decide⟩

/-- Claim C1 (amended): after a successful sync_now whose pull observes a
NON-EMPTY remote result set (with distinct server ids, so the batch insert
succeeds), the Local Store is exactly that result set, row for row with
synced=1, and get_all() contains no id outside it; when the remote result
set is empty the pull leaves the Local Store unchanged instead. -/
theorem sync_pull_snapshot (db : List RemoteTask) (uid : String)
    (oracle : Oracle) (store : List Row) (q : Queue) (rows : List Row)
    (hne : remote_select db uid ≠ [])
    (hins : insertRows (remote_select db uid) [] = some rows)
    (_hok : (sync_now oracle (some (remote_select db uid)) store q).1
      = true) :
    (sync_now oracle (some (remote_select db uid)) store q).2.1 = rows
    ∧ rows = (remote_select db uid).map rowOfTaskReplace
    ∧ ∀ tid : String, (∀ t ∈ remote_select db uid, t.id ≠ some tid) →
        ∀ x ∈ cache_get_all rows, x.id ≠ some tid := by
  have hrows : rows = (remote_select db uid).map rowOfTaskReplace := by
    simpa using insertRows_eq _ _ _ hins
  refine ⟨?_, hrows, ?_⟩
  · simp [sync_now, pull_from_supabase, cache_replace_all, hins,
      List.isEmpty_iff, hne]
  · intro tid htid x hx
    simp only [cache_get_all, List.mem_map] at hx
    obtain ⟨r, hr, rfl⟩ := hx
    rw [mem_sortLe] at hr
    rw [hrows, List.mem_map] at hr
    obtain ⟨t, ht, rfl⟩ := hr
    exact htid t ht

/-- Witness for C1 (amended) on a one-row remote table. -/
theorem sync_pull_snapshot_witness :
    (sync_now (fun _ => .ok true) (some (remote_select dbOne "U1")) []
        Queue.empty).2.1 = [rowOfTaskReplace task42]
    ∧ (taskOfRow (rowOfTaskReplace task42)).id ≠ some "T1" :=
  ⟨(sync_pull_snapshot dbOne "U1" (fun _ => .ok true) [] Queue.empty
      [rowOfTaskReplace task42] (by decide) (by decide) (by decide)).1,
   (sync_pull_snapshot dbOne "U1" (fun _ => .ok true) [] Queue.empty
      [rowOfTaskReplace task42] (by decide) (by decide) (by decide)).2.2
      "T1" (by decide) (taskOfRow (rowOfTaskReplace task42)) (by decide)⟩

/-- The create payload of the C4 scenario (no id yet — server assigns). -/
def buyMilk : Task :=
  { Task.empty with title := some "Buy milk", priority := some "low" }

/-- A queue holding one enqueued create of the Buy-milk task. -/
def queueCreateMilk : Queue :=
  add_pending_update Queue.empty "create" (.task buyMilk)
    "2025-01-01T00:00:00"

/-- Claim C4: every row written by upsert is stored with synced=0, every
row written by replace_all is stored with synced=1; and in the Buy-milk
scenario (one queued create, remote insert succeeds, pull returns the
server row with id "42"), after sync the store holds exactly the row with
id "42" and synced=1 and get_all() contains it. -/
theorem synced_flag_semantics :
    (∀ (store : List Row) (t : Task) (now : String) (r : Row),
        r ∈ cache_upsert store t now → r ∉ store → r.synced = 0)
    ∧ (∀ (tasks : List Task) (rows : List Row),
        insertRows tasks [] = some rows → ∀ r ∈ rows, r.synced = 1)
    ∧ sync_now (fun _ => .ok true) (some [task42]) [] queueCreateMilk
        = (true, [rowOfTaskReplace task42], ⟨[], 1⟩)
    ∧ (rowOfTaskReplace task42).synced = 1
    ∧ (cache_get_all [rowOfTaskReplace task42]).map (fun t => t.id)
        = [some "42"] := by
  refine ⟨?_, ?_, by decide, rfl, by decide⟩
  · intro store t now r hmem hnot
    rcases List.mem_append.mp hmem with h | h
    · exact absurd (List.mem_of_mem_filter h) hnot
    · simp only [List.mem_singleton] at h
      subst h
      rfl
  · intro tasks rows hins r hr
    have hrows := insertRows_eq _ _ _ hins
    subst hrows
    simp only [List.nil_append, List.mem_map] at hr
    obtain ⟨t, _, rfl⟩ := hr
    rfl

/-- Witness for C4 at a concrete upsert row and replace_all batch. -/
theorem synced_flag_semantics_witness :
    (rowOfTaskUpsert taskT1 "2025-01-01").synced = 0
    ∧ (rowOfTaskReplace task42).synced = 1 :=
  ⟨synced_flag_semantics.1 [] taskT1 "2025-01-01"
      (rowOfTaskUpsert taskT1 "2025-01-01") (by decide) (by decide),
   synced_flag_semantics.2.1 [task42] [rowOfTaskReplace task42] (by decide)
      (rowOfTaskReplace task42) (by decide)⟩

/-- Claim C5: sync_now succeeds iff both phases do; the push phase
succeeds exactly when the queue was empty or at least one drained entry
got a non-empty remote response; the pull phase succeeds exactly when the
remote fetch did not raise.  Requeued push failures alone never fail the
sync. -/
theorem sync_now_success_iff (oracle : Oracle) (fetch : Option (List Task))
    (store : List Row) (q : Queue) :
    ((sync_now oracle fetch store q).1 = true ↔
      ((push_to_supabase oracle q).1 = true
        ∧ (pull_from_supabase fetch store).1 = true))
    ∧ ((push_to_supabase oracle q).1 = true ↔
      (q.rows = []
        ∨ 0 < (processUpdates oracle (pop_pending_updates q).1).1))
    ∧ ((pull_from_supabase fetch store).1 = true ↔ fetch ≠ none) := by
  refine ⟨?_, ?_, ?_⟩
  · simp [sync_now, Bool.and_eq_true]
  · obtain ⟨rows, nid⟩ := q
    cases rows with
    | nil => simp [push_to_supabase, get_pending_count]
    | cons r rs =>
      rw [pop_fst]
      simp [push_to_supabase, get_pending_count, pop_fst, length_sortLe]
  · cases fetch with
    | none => simp [pull_from_supabase]
    | some tasks =>
      simp only [pull_from_supabase]
      split <;> simp

/-- Claim C6: replace_all is transactional — whenever the batch insert
fails, the prior store contents are fully preserved and the error is
reported through the returned flag (the function is total: nothing is
raised); a pull failure likewise returns False with the store exactly as
it was. -/
theorem replace_all_transactional :
    (∀ (store : List Row) (tasks : List Task),
        insertRows tasks [] = none →
        cache_replace_all store tasks = (store, true))
    ∧ ∀ store : List Row,
        pull_from_supabase none store = (false, store) := by
  constructor
  · intro store tasks h
    simp [cache_replace_all, h]
  · intro store
    rfl

/-- Witness for C6: a batch repeating id "42" rolls back, keeping rowT1. -/
theorem replace_all_transactional_witness :
    cache_replace_all [rowT1] [task42, task42] = ([rowT1], true)
    ∧ pull_from_supabase none [rowT1] = (false, [rowT1]) :=
  ⟨replace_all_transactional.1 [rowT1] [task42, task42] (by decide),
   replace_all_transactional.2 [rowT1]⟩

/-- A queue holding one enqueued update of T1. -/
def qUpdateT1 : Queue :=
  add_pending_update Queue.empty "update" (.task taskT1)
    "2025-01-01T00:00:00"

/-- A task created locally while a push is in flight. -/
def taskNew : Task := { Task.empty with id := some "N", title := some "new" }

/-- The queue state reached by the code's own temporal order during one
push with a concurrent enqueue: the queue (one update of T1) is drained,
the remote raises on the entry, a create of N is enqueued while the push
is still running, then the failed entry is re-queued. -/
def queueAfterFailedPush : Queue :=
  requeueAll
    (add_pending_update (pop_pending_updates qUpdateT1).2 "create"
      (.task taskNew) "2025-01-02T00:00:00")
    (processUpdates (fun _ => .raise) (pop_pending_updates qUpdateT1).1).2

/-- Counterexample to C2 as stated: the re-queued entry keeps its ORIGINAL
timestamp, and drain orders by timestamp, so on the next drain_all the
failed entry (T1, enqueued 01-01) comes out BEFORE the mutation enqueued
during the failed push (N, enqueued 01-02) — not after it. -/
theorem requeued_entry_drains_first :
    (pop_pending_updates queueAfterFailedPush).1.map (fun u => u.task_id)
      = [some "T1", some "N"]
    ∧ (pop_pending_updates queueAfterFailedPush).1.map (fun u => u.task_id)
      ≠ [some "N", some "T1"] :=
  ⟨by decide, by decide⟩

/-- Claim C2 (amended): failed entries are re-appended at the tail of the
table, preserving their relative order and their original task_id,
operation, payload AND timestamp; because drain_all orders by timestamp,
on the next drain they come out BEFORE any mutation enqueued during the
failed push attempt (whose timestamps are strictly later) — they keep
their place at the front of the line, they do not go to the back. -/
theorem requeue_front_of_line (q : Queue) (failed : List Update)
    (hq : sortedByKeyB (fun r => r.timestamp) q.rows = true)
    (hf : sortedByKeyB (fun u => u.timestamp) failed = true)
    (hsep : ∀ r ∈ q.rows, ∀ u ∈ failed,
      strLeB r.timestamp u.timestamp = false) :
    (requeueAll q failed).rows = q.rows ++ requeuedRows q.nextId failed
    ∧ (requeuedRows q.nextId failed).map
        (fun r => (r.task_id, r.operation, r.payload, r.timestamp))
      = failed.map
          (fun u => (u.task_id, u.operation, u.payload, u.timestamp))
    ∧ (pop_pending_updates (requeueAll q failed)).1
      = (requeuedRows q.nextId failed).map updateOfRow
        ++ q.rows.map updateOfRow := by
  have hqs : (requeueAll q failed).rows
      = q.rows ++ requeuedRows q.nextId failed := by
    rw [requeueAll_eq]
  refine ⟨hqs, requeuedRows_map_fields failed q.nextId, ?_⟩
  have hchainf : List.Chain'
      (fun a b => strLeB a.timestamp b.timestamp = true)
      (requeuedRows q.nextId failed) := by
    have h1 : List.Chain' (fun x y : String => strLeB x y = true)
        (failed.map (fun u => u.timestamp)) :=
      (List.chain'_map _).mpr (chain'_of_sortedByKeyB _ failed hf)
    have h2 : List.Chain' (fun x y : String => strLeB x y = true)
        ((requeuedRows q.nextId failed).map (fun r => r.timestamp)) := by
      rw [requeuedRows_map_timestamp]
      exact h1
    exact (List.chain'_map _).mp h2
  have hchainq : List.Chain'
      (fun a b => strLeB a.timestamp b.timestamp = true) q.rows :=
    chain'_of_sortedByKeyB (fun r => r.timestamp) q.rows hq
  have hsep' : ∀ a ∈ q.rows, ∀ b ∈ requeuedRows q.nextId failed,
      strLeB a.timestamp b.timestamp = false := by
    intro a ha b hb
    have hmem : b.timestamp
        ∈ (requeuedRows q.nextId failed).map (fun r => r.timestamp) :=
      List.mem_map_of_mem _ hb
    rw [requeuedRows_map_timestamp, List.mem_map] at hmem
    obtain ⟨u, hu, hts⟩ := hmem
    rw [← hts]
    exact hsep a ha u hu
  rw [pop_fst, hqs,
    sortLe_append_sep (fun a b => strLeB a.timestamp b.timestamp) q.rows
      (requeuedRows q.nextId failed) hsep',
    sortLe_eq_of_chain _ _ hchainf, sortLe_eq_of_chain _ _ hchainq,
    List.map_append]

/-- One row enqueued while the push was in flight. -/
def rowDuringPush : PendingRow :=
  ⟨1, some "N", "create", .json taskNew, "2025-01-02T00:00:00"⟩

/-- The drained-and-emptied queue after the in-flight enqueue. -/
def queueDuringPush : Queue := ⟨[rowDuringPush], 2⟩

/-- The failed entry of the drained batch (original timestamp 01-01). -/
def failedE1 : List Update :=
  [⟨0, some "T1", "update", .json taskT1, "2025-01-01T00:00:00"⟩]

/-- Witness for C2 (amended) on a concrete one-failure, one-arrival run. -/
theorem requeue_front_of_line_witness :
    (pop_pending_updates (requeueAll queueDuringPush failedE1)).1
      = (requeuedRows queueDuringPush.nextId failedE1).map updateOfRow
        ++ queueDuringPush.rows.map updateOfRow :=
  (requeue_front_of_line queueDuringPush failedE1 (by decide) (by decide)
    (by decide)).2.2

/-- Counterexample to C3 as stated: one drained update entry gets a
non-raising remote response whose data is EMPTY (a rejected/not-found
write) — it is not counted as a success (the push returns False) and it
is not re-queued either: the queue ends empty, the entry is silently
dropped. -/
theorem empty_result_entry_dropped :
    get_pending_count qUpdateT1 = 1
    ∧ push_to_supabase (fun _ => .ok false) qUpdateT1 = (false, ⟨[], 1⟩) :=
  ⟨rfl, by decide⟩

/-- Claim C3 (amended): the failed list collects exactly the drained
entries whose remote call RAISES, in their original relative order, and
exactly those are re-queued with original payload; an entry whose call
returns an empty result is neither counted as a success nor re-queued;
the success count is exactly the number of entries with a non-empty
response; processing always continues past failures (the characterization
covers every batch). -/
theorem push_requeues_only_raised (oracle : Oracle) :
    (∀ updates : List Update,
        (processUpdates oracle updates).2
          = updates.filter (fun u =>
              isRemoteOp u.operation && decide (oracle u = .raise))
        ∧ (processUpdates oracle updates).1
          = updates.countP (fun u =>
              isRemoteOp u.operation && decide (oracle u = .ok true)))
    ∧ ∀ q : Queue, q.rows ≠ [] →
        (push_to_supabase oracle q).2.rows
          = requeuedRows q.nextId
              ((processUpdates oracle (pop_pending_updates q).1).2) := by
  constructor
  · intro updates
    induction updates with
    | nil => exact ⟨rfl, rfl⟩
    | cons u rest ih =>
      simp only [processUpdates]
      cases hop : isRemoteOp u.operation with
      | false => simp [hop, List.filter_cons, List.countP_cons, ih]
      | true =>
        cases hres : oracle u with
        | raise => simp [hop, hres, List.filter_cons, List.countP_cons, ih]
        | ok ne =>
          cases ne <;>
            simp [hop, hres, List.filter_cons, List.countP_cons, ih]
  · intro q hne
    have hcount : ¬ get_pending_count q = 0 := by
      simpa [get_pending_count, List.length_eq_zero] using hne
    simp only [push_to_supabase]
    rw [if_neg hcount, pop_snd_of_ne q hne, requeueAll_eq]
    simp

/-- Witness for C3 (amended): a raising remote re-queues the entry. -/
theorem push_requeues_only_raised_witness :
    (push_to_supabase (fun _ => .raise) qUpdateT1).2.rows
      = requeuedRows qUpdateT1.nextId
          ((processUpdates (fun _ => .raise)
            (pop_pending_updates qUpdateT1).1).2) :=
  (push_requeues_only_raised (fun _ => .raise)).2 qUpdateT1 (by decide)

theorem fromisoformat_valid (cs : List Char) (d : PDate)
    (h : fromisoformat cs = some d) : d.valid = true := by
  unfold fromisoformat at h
  repeat' split at h
  all_goals simp_all

theorem strptimeDateHM_valid (cs : List Char) (d : PDate)
    (h : strptimeDateHM cs = some d) : d.valid = true := by
  unfold strptimeDateHM at h
  repeat' split at h
  all_goals simp_all

/-- Claim C9: parse_deadline is a total function — it accepts the three
textual formats (date-only, date-plus-time, ISO-with-timezone), returns
None on empty/absent input and on total parse failure, never raises (the
Lean embedding is a total function; every failure path yields None), and
every date it does return is calendar-valid. -/
theorem parse_deadline_total_formats :
    parse_deadline none = none
    ∧ parse_deadline (some "") = none
    ∧ parse_deadline (some "2025-12-31") = some ⟨2025, 12, 31⟩
    ∧ parse_deadline (some "2025-12-31 15:30") = some ⟨2025, 12, 31⟩
    ∧ parse_deadline (some "2025-12-31T15:30:00+00:00")
        = some ⟨2025, 12, 31⟩
    ∧ parse_deadline (some "not a date") = none
    ∧ parse_deadline (some "2025-02-30") = none
    ∧ ∀ (s : String) (d : PDate),
        parse_deadline (some s) = some d → d.valid = true := by
  refine ⟨rfl, rfl, by decide, by decide, by decide, by decide, by decide,
    ?_⟩
  intro s d h
  simp only [parse_deadline] at h
  split at h
  · exact absurd h (by simp)
  · split at h
    · exact fromisoformat_valid _ _ h
    · split at h
      · exact strptimeDateHM_valid _ _ h
      · exact fromisoformat_valid _ _ h

/-- Witness for C9: the parsed concrete date is calendar-valid. -/
theorem parse_deadline_total_formats_witness :
    (⟨2025, 12, 31⟩ : PDate).valid = true :=
  parse_deadline_total_formats.2.2.2.2.2.2.2 "2025-12-31" ⟨2025, 12, 31⟩
    (by decide)

end MyDailyOps
